import Mathlib

/-!
Verification of the HPPCalc costing and forecasting engines.

The development shallowly embeds the two calculation engines of the
repository, from the TypeScript sources:
  - the HPP (cost of goods produced) calculator, and
  - the sales forecasting engine
together with the record types they consume.

JavaScript numbers are modelled by the type JNum: a finite value is a
rational, and the special values Infinity, -Infinity and NaN are explicit
constructors, so that unguarded divisions by zero in the source are
represented faithfully instead of being silently totalised.  Input data
coming from the store (prices, quantities, stock, wages) are finite
numbers and are modelled directly as rationals; every value the engines
derive by arithmetic that can overflow to a non-finite value is a JNum.
Dates are modelled at calendar-day granularity as integers counting days
since the Unix epoch; day 0 is a Thursday, so the JavaScript getDay of
day d is (d + 4) mod 7.
-/

namespace HPPCalc

/-- A JavaScript number: finite rational, positive or negative infinity,
or NaN.  The sign of zero is not modelled; a finite zero behaves as +0. -/
inductive JNum where
  | fin (q : ℚ)
  | posInf
  | negInf
  | nan
deriving DecidableEq, Repr

namespace JNum

/-- JavaScript addition. -/
def add : JNum → JNum → JNum
  | nan, _ => nan
  | _, nan => nan
  | fin a, fin b => fin (a + b)
  | fin _, posInf => posInf
  | posInf, fin _ => posInf
  | fin _, negInf => negInf
  | negInf, fin _ => negInf
  | posInf, posInf => posInf
  | negInf, negInf => negInf
  | posInf, negInf => nan
  | negInf, posInf => nan

/-- JavaScript negation. -/
def neg : JNum → JNum
  | fin a => fin (-a)
  | posInf => negInf
  | negInf => posInf
  | nan => nan

/-- JavaScript subtraction. -/
def sub (x y : JNum) : JNum := x.add y.neg

/-- JavaScript multiplication. -/
def mul : JNum → JNum → JNum
  | nan, _ => nan
  | _, nan => nan
  | fin a, fin b => fin (a * b)
  | fin a, posInf => if a = 0 then nan else if 0 < a then posInf else negInf
  | fin a, negInf => if a = 0 then nan else if 0 < a then negInf else posInf
  | posInf, fin b => if b = 0 then nan else if 0 < b then posInf else negInf
  | negInf, fin b => if b = 0 then nan else if 0 < b then negInf else posInf
  | posInf, posInf => posInf
  | posInf, negInf => negInf
  | negInf, posInf => negInf
  | negInf, negInf => posInf

/-- JavaScript division.  Dividing a nonzero finite value by zero gives a
signed infinity, 0/0 gives NaN, and a finite value divided by an infinite
one gives 0. -/
def div : JNum → JNum → JNum
  | nan, _ => nan
  | _, nan => nan
  | fin a, fin b =>
      if b = 0 then (if a = 0 then nan else if 0 < a then posInf else negInf)
      else fin (a / b)
  | posInf, fin b => if 0 ≤ b then posInf else negInf
  | negInf, fin b => if 0 ≤ b then negInf else posInf
  | fin _, posInf => fin 0
  | fin _, negInf => fin 0
  | posInf, posInf => nan
  | posInf, negInf => nan
  | negInf, posInf => nan
  | negInf, negInf => nan

/-- JavaScript Math.max(0, x).  NaN propagates. -/
def max0 : JNum → JNum
  | fin q => fin (max 0 q)
  | posInf => posInf
  | negInf => fin 0
  | nan => nan

/-- JavaScript Math.max(x, c) against a finite constant.  NaN propagates. -/
def maxQ : JNum → ℚ → JNum
  | fin q, c => fin (max q c)
  | posInf, _ => posInf
  | negInf, c => fin c
  | nan, _ => nan

/-- JavaScript Math.round: round half towards positive infinity. -/
def round : JNum → JNum
  | fin q => fin (⌊q + 1/2⌋ : ℤ)
  | posInf => posInf
  | negInf => negInf
  | nan => nan

/-- JavaScript Math.ceil. -/
def ceil : JNum → JNum
  | fin q => fin (⌈q⌉ : ℤ)
  | posInf => posInf
  | negInf => negInf
  | nan => nan

/-- JavaScript Math.floor. -/
def floor : JNum → JNum
  | fin q => fin (⌊q⌋ : ℤ)
  | posInf => posInf
  | negInf => negInf
  | nan => nan

/-- The JavaScript expression x || d with a finite default d: the default
is taken when x is falsy, that is 0 or NaN.  Infinite values are truthy. -/
def orElse (x : JNum) (d : ℚ) : JNum :=
  match x with
  | fin q => if q = 0 then fin d else fin q
  | nan => fin d
  | posInf => posInf
  | negInf => negInf

/-- The JavaScript comparison x > c against a finite constant; false on NaN. -/
def gtQ : JNum → ℚ → Bool
  | fin q, c => decide (c < q)
  | posInf, _ => true
  | negInf, _ => false
  | nan, _ => false

/-- The JavaScript comparison x < c against a finite constant; false on NaN. -/
def ltQ : JNum → ℚ → Bool
  | fin q, c => decide (q < c)
  | posInf, _ => false
  | negInf, _ => true
  | nan, _ => false

/-- The JavaScript expression isNaN(x) ? 0 : x. -/
def nanTo0 : JNum → JNum
  | nan => fin 0
  | x => x

end JNum

/-! ## Data model

Record types of the store, from the type declarations referenced by the
engines (Material, ProductIngredient, Product, Overhead, LaborRate, Sale)
and by the spec data model.  Identities are strings; monetary amounts,
quantities, stock and wages are finite input numbers, modelled as
rationals. -/

/-- Unit of measure of a material (the Unit union type of the source:
"g", "kg", "ml", "l", "pcs", "pack"). -/
inductive MUnit where
  | g
  | kg
  | ml
  | l
  | pcs
  | pack
deriving DecidableEq, Repr

/-- A raw material of the store. -/
structure Material where
  id : String
  name : String
  unit : MUnit
  pricePerUnit : ℚ
  stockAmount : ℚ
deriving DecidableEq, Repr

/-- One ingredient line of a product: a reference to a material and the
quantity consumed per production batch. -/
structure ProductIngredient where
  id : String
  materialId : String
  quantity : ℚ
deriving DecidableEq, Repr

/-- A manufactured product. -/
structure Product where
  id : String
  name : String
  description : String
  yieldPerBatch : ℚ
  laborMinutes : ℚ
  ingredients : List ProductIngredient
deriving DecidableEq, Repr

/-- Allocation mode of an overhead rule. -/
inductive AllocationType where
  | fixed
  | per_unit
  | percentage
deriving DecidableEq, Repr

/-- An overhead rule. -/
structure Overhead where
  id : String
  name : String
  amount : ℚ
  allocationType : AllocationType
deriving DecidableEq, Repr

/-- A labor rate. -/
structure LaborRate where
  id : String
  name : String
  wagePerHour : ℚ
deriving DecidableEq, Repr

/-- A sale transaction.  soldAt is the calendar day of the sale, counted
in days since the Unix epoch. -/
structure Sale where
  id : String
  productId : String
  quantity : ℚ
  unitPrice : ℚ
  soldAt : ℤ
deriving DecidableEq, Repr

/-! ## Costing engine (hpp-calculator source)

The source obtains the materials, overheads and labor-rates snapshots
from the store; here they are explicit parameters.  The computation
timestamp (new Date() in the source) is an explicit evaluation instant
parameter. -/

/-- A per-material price override entry of HPPOverrides. -/
structure MaterialPriceOverride where
  materialId : String
  pricePerUnit : ℚ
deriving DecidableEq, Repr

/-- Optional overrides accepted by calculateHPP. -/
structure HPPOverrides where
  materialPrices : Option (List MaterialPriceOverride) := none
  laborMinutes : Option ℚ := none
  laborRateId : Option String := none
  marginPercent : Option ℚ := none
  monthlyProduction : Option ℚ := none
deriving DecidableEq, Repr

/-- One line of the per-material cost breakdown.  In the source the
quantity and total of a resolved line come out of a division by
yieldPerBatch, hence JNum. -/
structure MaterialDetail where
  name : String
  quantity : JNum
  unit : MUnit
  pricePerUnit : ℚ
  total : JNum
deriving DecidableEq, Repr

/-- The breakdown part of an HPPResult. -/
structure HPPBreakdown where
  materialsTotal : JNum
  materialDetails : List MaterialDetail
  laborCost : JNum
  overheadCost : JNum
  hppPerUnit : JNum
deriving DecidableEq, Repr

/-- The result of calculateHPP.  computedAt is the evaluation instant. -/
structure HPPResult where
  productId : String
  productName : String
  computedAt : ℤ
  breakdown : HPPBreakdown
  suggestedPrice : JNum
  marginPercent : ℚ
deriving DecidableEq, Repr

/-- DEFAULT_MARGIN of the source: 30 percent. -/
def DEFAULT_MARGIN : ℚ := 30

/-- DEFAULT_MONTHLY_PRODUCTION of the source: 500 units. -/
def DEFAULT_MONTHLY_PRODUCTION : ℚ := 500

/-- The body of the materialDetails map of calculateHPP: resolve the
ingredient material by id; unresolved gives the zero-cost
"Unknown Material" placeholder line; resolved gives
quantityPerUnit = ingredient.quantity / product.yieldPerBatch and
total = quantityPerUnit * (overridden or base) pricePerUnit. -/
def materialLine (materials : List Material) (overrides : HPPOverrides)
    (product : Product) (ingredient : ProductIngredient) : MaterialDetail :=
  match materials.find? (fun m => m.id == ingredient.materialId) with
  | none =>
      { name := "Unknown Material"
        quantity := JNum.fin ingredient.quantity
        unit := MUnit.pcs
        pricePerUnit := 0
        total := JNum.fin 0 }
  | some material =>
      let priceOverride :=
        (overrides.materialPrices.getD []).find?
          (fun p => p.materialId == ingredient.materialId)
      let pricePerUnit :=
        (priceOverride.map MaterialPriceOverride.pricePerUnit).getD
          material.pricePerUnit
      let quantityPerUnit :=
        (JNum.fin ingredient.quantity).div (JNum.fin product.yieldPerBatch)
      { name := material.name
        quantity := quantityPerUnit
        unit := material.unit
        pricePerUnit := pricePerUnit
        total := quantityPerUnit.mul (JNum.fin pricePerUnit) }

/-- The materialDetails list of calculateHPP: one line per ingredient. -/
def materialDetailsOf (materials : List Material) (overrides : HPPOverrides)
    (product : Product) : List MaterialDetail :=
  product.ingredients.map (materialLine materials overrides product)

/-- materialsTotal of calculateHPP:
materialDetails.reduce((sum, m) => sum + m.total, 0). -/
def materialsTotalOf (materials : List Material) (overrides : HPPOverrides)
    (product : Product) : JNum :=
  (materialDetailsOf materials overrides product).foldl
    (fun sum m => sum.add m.total) (JNum.fin 0)

/-- laborCost of calculateHPP: the selected labor rate is the one with
the overridden id, else the first of the snapshot; its hourly wage
(fallback 20000) over 60 times the effective labor minutes.  All inputs
are finite, so the labor cost is a plain rational. -/
def laborCostOf (laborRates : List LaborRate) (overrides : HPPOverrides)
    (product : Product) : ℚ :=
  let laborMinutes := overrides.laborMinutes.getD product.laborMinutes
  let laborRate :=
    match overrides.laborRateId with
    | some rid => laborRates.find? (fun (r : LaborRate) => r.id == rid)
    | none => laborRates.head?
  let wagePerMinute := ((laborRate.map LaborRate.wagePerHour).getD 20000) / 60
  wagePerMinute * laborMinutes

/-- The per-rule overhead contribution of the switch inside the overheads
fold of calculateHPP, with base the materials+labor subtotal
materialsTotal + laborCost (a constant of the fold). -/
def overheadContribution (monthlyProduction : ℚ) (base : JNum)
    (overhead : Overhead) : JNum :=
  match overhead.allocationType with
  | AllocationType.fixed =>
      (JNum.fin overhead.amount).div (JNum.fin monthlyProduction)
  | AllocationType.per_unit => JNum.fin overhead.amount
  | AllocationType.percentage => base.mul (JNum.fin (overhead.amount / 100))

/-- overheadCost of calculateHPP: the forEach accumulation
overheadCost += contribution over the overheads snapshot. -/
def overheadCostOf (overheads : List Overhead) (monthlyProduction : ℚ)
    (base : JNum) : JNum :=
  overheads.foldl
    (fun oc overhead =>
      oc.add (overheadContribution monthlyProduction base overhead))
    (JNum.fin 0)

/-- calculateHPP of the source.  The materials, overheads and labor-rates
snapshots (fetched from the store in the source) and the evaluation
instant now (new Date() in the source) are explicit parameters. -/
def calculateHPP (materials : List Material) (overheads : List Overhead)
    (laborRates : List LaborRate) (now : ℤ) (product : Product)
    (overrides : HPPOverrides) : HPPResult :=
  let marginPercent := overrides.marginPercent.getD DEFAULT_MARGIN
  let monthlyProduction :=
    overrides.monthlyProduction.getD DEFAULT_MONTHLY_PRODUCTION
  let materialDetails := materialDetailsOf materials overrides product
  let materialsTotal := materialsTotalOf materials overrides product
  let laborCost := laborCostOf laborRates overrides product
  let overheadCost :=
    overheadCostOf overheads monthlyProduction
      (materialsTotal.add (JNum.fin laborCost))
  let hppPerUnit := (materialsTotal.add (JNum.fin laborCost)).add overheadCost
  let suggestedPrice :=
    hppPerUnit.div (JNum.fin (1 - marginPercent / 100))
  { productId := product.id
    productName := product.name
    computedAt := now
    breakdown :=
      { materialsTotal := materialsTotal
        materialDetails := materialDetails
        laborCost := JNum.fin laborCost
        overheadCost := overheadCost
        hppPerUnit := hppPerUnit }
    suggestedPrice := ((suggestedPrice.div (JNum.fin 100)).ceil).mul (JNum.fin 100)
    marginPercent := marginPercent }

/-! ## Forecasting engine (forecast source)

The store snapshots (products, sales, materials) and the evaluation
instant now (new Date() in the source) are explicit parameters.  Dates
are calendar days as integers. -/

/-- One day of the forward forecast. -/
structure ForecastDay where
  date : ℤ
  quantity : JNum
deriving DecidableEq, Repr

/-- Trend classification. -/
inductive Trend where
  | up
  | down
  | stable
deriving DecidableEq, Repr

/-- The result of calculateForecast. -/
structure ForecastResult where
  productId : String
  productName : String
  horizon : ℕ
  dailyForecast : List ForecastDay
  totalForecast : JNum
  currentStock : JNum
  recommendedRestock : JNum
  averageDailySales : JNum
  trend : Trend
  trendPercent : JNum
deriving DecidableEq, Repr

/-- calculateMovingAverage of the source: if fewer than window values,
the mean of all values (data.reduce(..)/data.length || 0, which turns the
NaN of an empty list into 0); otherwise the mean of the last window
values (data.slice(-window), which for a zero window is the whole
array). -/
def calculateMovingAverage (data : List ℚ) (window : ℕ) : JNum :=
  if data.length < window then
    ((JNum.fin data.sum).div (JNum.fin data.length)).orElse 0
  else
    let windowData := if window = 0 then data else data.drop (data.length - window)
    (JNum.fin windowData.sum).div (JNum.fin (window : ℚ))

/-- linearRegression of the source on [x, y] pairs.  The intercept is
computed from the raw (unguarded) slope; the isNaN(..) ? 0 : .. guards of
the return statement are nanTo0. -/
def linearRegression (data : List (ℚ × ℚ)) : JNum × JNum :=
  if data.length < 2 then (JNum.fin 0, JNum.fin 0) else
  let n : ℚ := data.length
  let sumX := (data.map Prod.fst).sum
  let sumY := (data.map Prod.snd).sum
  let sumXY := (data.map (fun p => p.1 * p.2)).sum
  let sumXX := (data.map (fun p => p.1 * p.1)).sum
  let slope :=
    (JNum.fin (n * sumXY - sumX * sumY)).div (JNum.fin (n * sumXX - sumX * sumX))
  let intercept := ((JNum.fin sumY).sub (slope.mul (JNum.fin sumX))).div (JNum.fin n)
  (slope.nanTo0, intercept.nanTo0)

/-- The sales of the product restricted to the trailing 90-day window
ending at now (the sales and recentSales filters of the source). -/
def recentSalesOf (allSales : List Sale) (productId : String) (now : ℤ) :
    List Sale :=
  (allSales.filter (fun s => s.productId == productId)).filter
    (fun s => decide (now - 90 ≤ s.soldAt) && decide (s.soldAt ≤ now))

/-- Aggregated quantity sold on calendar day d (the dailySales map of the
source: quantities of all window sales with that date key, summed). -/
def dailyQty (recent : List Sale) (d : ℤ) : ℚ :=
  ((recent.filter (fun s => s.soldAt == d)).map Sale.quantity).sum

/-- The dense 90-day daily quantity series of the source (salesArray),
oldest to newest: days now - 89 .. now, zero on days without sales. -/
def salesSeries (allSales : List Sale) (productId : String) (now : ℤ) :
    List ℚ :=
  (List.range 90).map
    (fun j => dailyQty (recentSalesOf allSales productId now) (now - 89 + j))

/-- JavaScript Date.getDay on a day number: day 0 of the Unix epoch is a
Thursday, so getDay is (d + 4) mod 7 (0 = Sunday, 6 = Saturday). -/
def jsGetDay (d : ℤ) : ℤ := (d + 4) % 7

/-- One iteration of the forecast loop of the source, for day offset i
(1-based): weekend factor 1.3 on Sunday and Saturday, trend factor
1 + slope * i / max(baseValue, 1), predicted quantity
max(0, round(baseValue * trendFactor * weekendFactor)). -/
def forecastDay (now : ℤ) (slope baseValue : JNum) (i : ℕ) : ForecastDay :=
  let forecastDate := now + i
  let dayOfWeek := jsGetDay forecastDate
  let weekendFactor : ℚ := if dayOfWeek = 0 ∨ dayOfWeek = 6 then 13 / 10 else 1
  let trendFactor :=
    (JNum.fin 1).add ((slope.mul (JNum.fin (i : ℚ))).div (baseValue.maxQ 1))
  { date := forecastDate
    quantity := ((baseValue.mul trendFactor).mul (JNum.fin weekendFactor)).round.max0 }

/-- The dailyForecast list of the source: one ForecastDay per day offset
i = 1 .. horizonDays. -/
def dailyForecastOf (now : ℤ) (slope baseValue : JNum) (horizonDays : ℕ) :
    List ForecastDay :=
  (List.range horizonDays).map (fun k => forecastDay now slope baseValue (k + 1))

/-- One step of the currentStock reduce of the source: an ingredient
whose material resolves adds
floor(material.stockAmount / ing.quantity) * product.yieldPerBatch to the
accumulator; an unresolved ingredient leaves it unchanged. -/
def stockStep (materials : List Material) (product : Product) (total : JNum)
    (ing : ProductIngredient) : JNum :=
  match materials.find? (fun m => m.id == ing.materialId) with
  | none => total
  | some material =>
      total.add
        ((((JNum.fin material.stockAmount).div (JNum.fin ing.quantity)).floor).mul
          (JNum.fin product.yieldPerBatch))

/-- The currentStock reduce of the source, as a fold of stockStep over
the ingredient list. -/
def rawCurrentStock (materials : List Material) (product : Product) : JNum :=
  product.ingredients.foldl (stockStep materials product) (JNum.fin 0)

/-- The ma7 local of calculateForecast: 7-day moving average of the
90-day series. -/
def ma7Of (allSales : List Sale) (productId : String) (now : ℤ) : JNum :=
  calculateMovingAverage (salesSeries allSales productId now) 7

/-- The ma30 local of calculateForecast: 30-day moving average of the
90-day series. -/
def ma30Of (allSales : List Sale) (productId : String) (now : ℤ) : JNum :=
  calculateMovingAverage (salesSeries allSales productId now) 30

/-- The regression slope of calculateForecast, over the
[index, quantity] pairs of the 90-day series. -/
def slopeOf (allSales : List Sale) (productId : String) (now : ℤ) : JNum :=
  (linearRegression
    (((salesSeries allSales productId now).enum).map
      (fun p => ((p.1 : ℚ), p.2)))).1

/-- The trendPercent local of calculateForecast:
(slope / max(ma30, 1)) * 100 * 30. -/
def trendPercentOf (allSales : List Sale) (productId : String) (now : ℤ) : JNum :=
  (((slopeOf allSales productId now).div
    ((ma30Of allSales productId now).maxQ 1)).mul (JNum.fin 100)).mul (JNum.fin 30)

/-- The totalForecast local of calculateForecast: the reduce of the
forecast-day quantities, with baseValue = ma7. -/
def totalForecastOf (allSales : List Sale) (productId : String) (now : ℤ)
    (horizonDays : ℕ) : JNum :=
  (dailyForecastOf now (slopeOf allSales productId now)
      (ma7Of allSales productId now) horizonDays).foldl
    (fun sum d => sum.add d.quantity) (JNum.fin 0)

/-- calculateForecast of the source.  Returns none when the product id
does not resolve in the products snapshot.  The locals of the source
(ma7, ma30, slope, trendPercent, dailyForecast, totalForecast,
currentStock, safetyBuffer, recommendedRestock) are the named
definitions above. -/
def calculateForecast (products : List Product) (allSales : List Sale)
    (materials : List Material) (now : ℤ) (productId : String)
    (horizonDays : ℕ) (safetyDays : ℕ) : Option ForecastResult :=
  match products.find? (fun p => p.id == productId) with
  | none => none
  | some product =>
    some
      { productId := productId
        productName := product.name
        horizon := horizonDays
        dailyForecast :=
          dailyForecastOf now (slopeOf allSales productId now)
            (ma7Of allSales productId now) horizonDays
        totalForecast := totalForecastOf allSales productId now horizonDays
        currentStock := (rawCurrentStock materials product).orElse 100
        recommendedRestock :=
          (((totalForecastOf allSales productId now horizonDays).sub
              ((rawCurrentStock materials product).orElse 100)).add
            (((ma7Of allSales productId now).mul
              (JNum.fin (safetyDays : ℚ))).ceil)).max0
        averageDailySales := ma7Of allSales productId now
        trend :=
          if (trendPercentOf allSales productId now).gtQ 5 then Trend.up
          else if (trendPercentOf allSales productId now).ltQ (-5) then Trend.down
          else Trend.stable
        trendPercent :=
          (((trendPercentOf allSales productId now).mul (JNum.fin 10)).round).div
            (JNum.fin 10) }

/-! ## Concrete fixtures

Small snapshots used to evaluate the engines at concrete inputs, shaped
after the demo seed data of the store. -/

/-- A material: flour at 12 per gram, 5000 in stock. -/
def matA : Material :=
  { id := "m1", name := "Flour", unit := MUnit.g, pricePerUnit := 12
    stockAmount := 5000 }

/-- A product: 100 g of flour per batch, yield 10 units per batch,
30 labor minutes per batch. -/
def prodCake : Product :=
  { id := "p1", name := "Cake", description := "", yieldPerBatch := 10
    laborMinutes := 30
    ingredients := [{ id := "i1", materialId := "m1", quantity := 100 }] }

/-- prodCake with a production yield of zero. -/
def prodZeroYield : Product := { prodCake with yieldPerBatch := 0 }

/-- A product holding an ingredient with negative quantity. -/
def prodNegQty : Product :=
  { prodCake with
    yieldPerBatch := 1
    ingredients := [{ id := "i1", materialId := "m1", quantity := -5 }] }

/-- A product whose only ingredient references a material id absent from
the snapshot. -/
def prodUnknown : Product :=
  { prodCake with
    ingredients := [{ id := "i1", materialId := "mX", quantity := 3 }] }

/-- A product with no ingredients. -/
def prodEmpty : Product := { prodCake with ingredients := [] }

/-- A product holding an ingredient with zero quantity. -/
def prodZeroQty : Product :=
  { prodCake with
    ingredients := [{ id := "i1", materialId := "m1", quantity := 0 }] }

/-- A second material: sugar at 15 per gram, 30 in stock. -/
def matB : Material :=
  { id := "m2", name := "Sugar", unit := MUnit.g, pricePerUnit := 15
    stockAmount := 30 }

/-- An ingredient line of 100 units of material m1. -/
def ingA : ProductIngredient := { id := "i1", materialId := "m1", quantity := 100 }

/-- An ingredient line of 50 units of material m2. -/
def ingB : ProductIngredient := { id := "i2", materialId := "m2", quantity := 50 }

/-- A product with two ingredient lines. -/
def prodTwo : Product := { prodCake with ingredients := [ingA, ingB] }

/-- A labor rate of 25000 per hour. -/
def rateBaker : LaborRate := { id := "r1", name := "Baker", wagePerHour := 25000 }

/-- A fixed overhead of 500000 per month. -/
def ovhRent : Overhead :=
  { id := "o1", name := "Rent", amount := 500000
    allocationType := AllocationType.fixed }

/-- A percentage overhead of 10 percent. -/
def ovhPctA : Overhead :=
  { id := "o2", name := "PctA", amount := 10
    allocationType := AllocationType.percentage }

/-- A second percentage overhead of 10 percent. -/
def ovhPctB : Overhead :=
  { id := "o3", name := "PctB", amount := 10
    allocationType := AllocationType.percentage }

/-- A single percentage overhead of 20 percent: both 10 percent
overheads applied simultaneously to the same base. -/
def ovhPct20 : Overhead :=
  { id := "o4", name := "Pct20", amount := 20
    allocationType := AllocationType.percentage }

/-! ## Basic lemmas about JNum arithmetic -/

namespace JNum

@[simp] theorem fin_add_fin (a b : ℚ) : (fin a).add (fin b) = fin (a + b) := rfl

@[simp] theorem fin_mul_fin (a b : ℚ) : (fin a).mul (fin b) = fin (a * b) := rfl

@[simp] theorem fin_sub_fin (a b : ℚ) : (fin a).sub (fin b) = fin (a - b) := by
  simp only [sub, neg, add]
  congr 1
  ring

theorem fin_div_fin (a b : ℚ) (h : b ≠ 0) : (fin a).div (fin b) = fin (a / b) := by
  simp [div, h]

@[simp] theorem zero_add' (x : JNum) : (fin 0).add x = x := by
  cases x <;> simp [add]

@[simp] theorem add_zero' (x : JNum) : x.add (fin 0) = x := by
  cases x <;> simp [add]

theorem add_comm' (x y : JNum) : x.add y = y.add x := by
  cases x <;> cases y <;> simp [add] <;> ring

theorem add_assoc' (x y z : JNum) : (x.add y).add z = x.add (y.add z) := by
  cases x <;> cases y <;> cases z <;> simp [add] <;> ring

theorem add_right_comm' (x y z : JNum) : (x.add y).add z = (x.add z).add y := by
  rw [add_assoc', add_assoc', add_comm' y z]

/-- Dividing finite zero by anything and clearing NaN yields zero. -/
theorem nanTo0_zero_div (x : JNum) : ((fin 0).div x).nanTo0 = fin 0 := by
  cases x with
  | fin b =>
      by_cases hb : b = 0 <;> simp [div, nanTo0, hb]
  | posInf => simp [div, nanTo0]
  | negInf => simp [div, nanTo0]
  | nan => simp [div, nanTo0]

end JNum

/-! ## Fold lemmas

The source accumulates sums with reduce / forEach folds; these lemmas
capture that such folds of finite values stay finite, vanish on zero
summands, and are invariant under permutation of the list. -/

/-- A JNum addition fold over finite summands is finite. -/
theorem foldl_add_fin {α : Type} (f : α → JNum) :
    ∀ (l : List α) (q0 : ℚ), (∀ a ∈ l, ∃ q, f a = JNum.fin q) →
      ∃ q, l.foldl (fun s a => s.add (f a)) (JNum.fin q0) = JNum.fin q := by
  intro l
  induction l with
  | nil => exact fun q0 _ => ⟨q0, rfl⟩
  | cons x xs ih =>
      intro q0 h
      obtain ⟨qx, hx⟩ := h x (by simp)
      simp only [List.foldl_cons, hx, JNum.fin_add_fin]
      exact ih (q0 + qx) (fun a ha => h a (by simp [ha]))

/-- A JNum addition fold over zero summands is zero. -/
theorem foldl_add_zero {α : Type} (f : α → JNum) :
    ∀ (l : List α), (∀ a ∈ l, f a = JNum.fin 0) →
      l.foldl (fun s a => s.add (f a)) (JNum.fin 0) = JNum.fin 0 := by
  intro l
  induction l with
  | nil => exact fun _ => rfl
  | cons x xs ih =>
      intro h
      simp only [List.foldl_cons, h x (by simp), JNum.add_zero']
      exact ih (fun a ha => h a (by simp [ha]))

/-- A JNum addition fold is invariant under permutation of the list. -/
theorem foldl_add_perm {α : Type} (f : α → JNum) {l₁ l₂ : List α}
    (h : l₁.Perm l₂) :
    ∀ b : JNum,
      l₁.foldl (fun s a => s.add (f a)) b = l₂.foldl (fun s a => s.add (f a)) b := by
  induction h with
  | nil => exact fun _ => rfl
  | cons x _ ih =>
      intro b
      simp only [List.foldl_cons]
      exact ih _
  | swap x y l =>
      intro b
      simp only [List.foldl_cons]
      rw [JNum.add_right_comm']
  | trans _ _ ih₁ ih₂ =>
      intro b
      rw [ih₁ b, ih₂ b]

/-! ## Projection lemmas for calculateHPP -/

theorem calculateHPP_productId (ms : List Material) (os : List Overhead)
    (lrs : List LaborRate) (now : ℤ) (p : Product) (ov : HPPOverrides) :
    (calculateHPP ms os lrs now p ov).productId = p.id := rfl

theorem calculateHPP_computedAt (ms : List Material) (os : List Overhead)
    (lrs : List LaborRate) (now : ℤ) (p : Product) (ov : HPPOverrides) :
    (calculateHPP ms os lrs now p ov).computedAt = now := rfl

theorem calculateHPP_materialDetails (ms : List Material) (os : List Overhead)
    (lrs : List LaborRate) (now : ℤ) (p : Product) (ov : HPPOverrides) :
    (calculateHPP ms os lrs now p ov).breakdown.materialDetails =
      materialDetailsOf ms ov p := rfl

theorem calculateHPP_materialsTotal (ms : List Material) (os : List Overhead)
    (lrs : List LaborRate) (now : ℤ) (p : Product) (ov : HPPOverrides) :
    (calculateHPP ms os lrs now p ov).breakdown.materialsTotal =
      materialsTotalOf ms ov p := rfl

theorem calculateHPP_laborCost (ms : List Material) (os : List Overhead)
    (lrs : List LaborRate) (now : ℤ) (p : Product) (ov : HPPOverrides) :
    (calculateHPP ms os lrs now p ov).breakdown.laborCost =
      JNum.fin (laborCostOf lrs ov p) := rfl

theorem calculateHPP_overheadCost (ms : List Material) (os : List Overhead)
    (lrs : List LaborRate) (now : ℤ) (p : Product) (ov : HPPOverrides) :
    (calculateHPP ms os lrs now p ov).breakdown.overheadCost =
      overheadCostOf os (ov.monthlyProduction.getD DEFAULT_MONTHLY_PRODUCTION)
        ((materialsTotalOf ms ov p).add (JNum.fin (laborCostOf lrs ov p))) := rfl

theorem calculateHPP_hppPerUnit (ms : List Material) (os : List Overhead)
    (lrs : List LaborRate) (now : ℤ) (p : Product) (ov : HPPOverrides) :
    (calculateHPP ms os lrs now p ov).breakdown.hppPerUnit =
      ((materialsTotalOf ms ov p).add (JNum.fin (laborCostOf lrs ov p))).add
        (overheadCostOf os (ov.monthlyProduction.getD DEFAULT_MONTHLY_PRODUCTION)
          ((materialsTotalOf ms ov p).add (JNum.fin (laborCostOf lrs ov p)))) := rfl

theorem calculateHPP_suggestedPrice (ms : List Material) (os : List Overhead)
    (lrs : List LaborRate) (now : ℤ) (p : Product) (ov : HPPOverrides) :
    (calculateHPP ms os lrs now p ov).suggestedPrice =
      ((((calculateHPP ms os lrs now p ov).breakdown.hppPerUnit.div
          (JNum.fin (1 - (ov.marginPercent.getD DEFAULT_MARGIN) / 100))).div
            (JNum.fin 100)).ceil).mul (JNum.fin 100) := rfl

/-! ## Claim theorems -/

/-- C8: calculateHPP is deterministic over its inputs: two calls with
identical product, snapshots and overrides yield identical results in
every field except the recorded computation timestamp computedAt, which
is the only field depending on the evaluation instant. -/
theorem C8_calculateHPP_deterministic (ms : List Material) (os : List Overhead)
    (lrs : List LaborRate) (t₁ t₂ : ℤ) (p : Product) (ov : HPPOverrides) :
    calculateHPP ms os lrs t₁ p ov =
      { calculateHPP ms os lrs t₂ p ov with computedAt := t₁ } := rfl

/-- C5: an ingredient whose material identity does not resolve in the
materials snapshot produces the zero-cost placeholder line named
"Unknown Material" (total 0, hence contributing nothing to
materialsTotal), and the computation completes. -/
theorem C5_unknown_material_placeholder (ms : List Material) (os : List Overhead)
    (lrs : List LaborRate) (now : ℤ) (p : Product) (ov : HPPOverrides)
    (i : ℕ) (ing : ProductIngredient)
    (hi : p.ingredients[i]? = some ing)
    (hfind : ms.find? (fun m => m.id == ing.materialId) = none) :
    (calculateHPP ms os lrs now p ov).breakdown.materialDetails[i]? =
      some { name := "Unknown Material", quantity := JNum.fin ing.quantity
             unit := MUnit.pcs, pricePerUnit := 0, total := JNum.fin 0 } := by
  rw [calculateHPP_materialDetails]
  simp only [materialDetailsOf, List.getElem?_map, hi, Option.map_some']
  simp [materialLine, hfind]

/-- Witness for C5 at a concrete snapshot: the single ingredient of
prodUnknown references the absent material id "mX". -/
theorem C5_witness :
    (calculateHPP [matA] [] [] 0 prodUnknown {}).breakdown.materialDetails[0]? =
      some { name := "Unknown Material", quantity := JNum.fin 3
             unit := MUnit.pcs, pricePerUnit := 0, total := JNum.fin 0 } :=
  C5_unknown_material_placeholder [matA] [] [] 0 prodUnknown {} 0
    { id := "i1", materialId := "mX", quantity := 3 }
    (by simp [prodUnknown, prodCake]) (by simp [List.find?, matA])

/-- C7: calculateForecast returns an explicit absent result (none) when
the product identity does not resolve, never an exception, and a
well-formed ForecastResult whenever it does resolve. -/
theorem C7_absent_or_wellformed (products : List Product) (allSales : List Sale)
    (materials : List Material) (now : ℤ) (productId : String) (hd sd : ℕ) :
    (products.find? (fun p => p.id == productId) = none →
      calculateForecast products allSales materials now productId hd sd = none) ∧
    (∀ product, products.find? (fun p => p.id == productId) = some product →
      ∃ r, calculateForecast products allSales materials now productId hd sd = some r ∧
        r.productId = productId ∧ r.productName = product.name ∧
        r.horizon = hd ∧ r.dailyForecast.length = hd) := by
  constructor
  · intro h
    simp [calculateForecast, h]
  · intro product h
    simp only [calculateForecast, h]
    exact ⟨_, rfl, rfl, rfl, rfl, by simp [dailyForecastOf]⟩

/-- Witness for C7 at concrete snapshots: the id "zz" does not resolve
and yields none; the id "p1" resolves and yields a well-formed result. -/
theorem C7_witness :
    (calculateForecast [prodCake] [] [] 0 "zz" 30 7 = none) ∧
    (∃ r, calculateForecast [prodCake] [] [matA] 0 "p1" 30 7 = some r ∧
      r.productId = "p1" ∧ r.productName = prodCake.name ∧
      r.horizon = 30 ∧ r.dailyForecast.length = 30) :=
  ⟨(C7_absent_or_wellformed [prodCake] [] [] 0 "zz" 30 7).1
      (by simp [List.find?, prodCake]),
   (C7_absent_or_wellformed [prodCake] [] [matA] 0 "p1" 30 7).2 prodCake
      (by simp [List.find?, prodCake])⟩

/-- C10: whenever the summed per-ingredient supportable stock (the
reduce over ingredients of floor(stockAmount / quantity) * yieldPerBatch,
skipping unresolved materials) evaluates to 0 — not only when the product
has no ingredients — the || 100 fallback makes currentStock 100. -/
theorem C10_currentStock_fallback (products : List Product) (allSales : List Sale)
    (materials : List Material) (now : ℤ) (productId : String) (hd sd : ℕ)
    (product : Product)
    (hfind : products.find? (fun p => p.id == productId) = some product)
    (hraw : rawCurrentStock materials product = JNum.fin 0) :
    ∃ r, calculateForecast products allSales materials now productId hd sd = some r ∧
      r.currentStock = JNum.fin 100 := by
  simp only [calculateForecast, hfind]
  exact ⟨_, rfl, by simp [hraw, JNum.orElse]⟩

/-- Witness for C10 at a concrete snapshot where the product has one
ingredient whose material is unresolved, so the summed supportable stock
is 0 even though the ingredient list is not empty. -/
theorem C10_witness :
    ∃ r, calculateForecast [prodUnknown] [] [matA] 0 "p1" 30 7 = some r ∧
      r.currentStock = JNum.fin 100 :=
  C10_currentStock_fallback [prodUnknown] [] [matA] 0 "p1" 30 7 prodUnknown
    (by simp [List.find?, prodUnknown, prodCake])
    (by simp [rawCurrentStock, stockStep, prodUnknown, prodCake, List.find?, matA])

/-- C3 counterexample: an ingredient of quantity -5 of a resolved
material priced 12, with yield 1, is not excluded: it produces a cost
line and contributes -60 to materialsTotal, contradicting the claim that
zero-or-negative-quantity ingredients contribute nothing and produce no
cost line. -/
theorem C3_counterexample :
    ((calculateHPP [matA] [] [] 0 prodNegQty {}).breakdown.materialsTotal =
      JNum.fin (-60)) ∧
    ((calculateHPP [matA] [] [] 0 prodNegQty {}).breakdown.materialsTotal ≠
      JNum.fin 0) ∧
    ((calculateHPP [matA] [] [] 0 prodNegQty {}).breakdown.materialDetails.length
      = 1) := by
  have h : (calculateHPP [matA] [] [] 0 prodNegQty {}).breakdown.materialsTotal =
      JNum.fin (-60) := by
    rw [calculateHPP_materialsTotal]
    norm_num [materialsTotalOf, materialDetailsOf, materialLine, prodNegQty,
      prodCake, matA, List.find?, JNum.div]
  refine ⟨h, by rw [h]; simp, ?_⟩
  rw [calculateHPP_materialDetails]
  simp [materialDetailsOf, prodNegQty, prodCake]

/-- C3 amended: calculateHPP does not filter ingredients by quantity.
Every ingredient — also one with zero or negative quantity — produces a
cost line, so the number of cost lines equals the number of ingredients;
an ingredient of zero quantity contributes a line of total 0, while a
negative quantity contributes its (negative) quantity / yieldPerBatch
times price; no error is raised either way.  (Zero/negative-quantity
ingredients are excluded upstream at data entry, not by the engine.) -/
theorem C3_amended (ms : List Material) (os : List Overhead)
    (lrs : List LaborRate) (now : ℤ) (p : Product) (ov : HPPOverrides) :
    ((calculateHPP ms os lrs now p ov).breakdown.materialDetails.length =
      p.ingredients.length) ∧
    (∀ i : ℕ, p.yieldPerBatch ≠ 0 →
      p.ingredients[i]?.map ProductIngredient.quantity = some 0 →
      ((calculateHPP ms os lrs now p ov).breakdown.materialDetails[i]?.map
        MaterialDetail.total) = some (JNum.fin 0)) := by
  constructor
  · rw [calculateHPP_materialDetails]
    simp [materialDetailsOf]
  · intro i hy hq
    rw [calculateHPP_materialDetails]
    obtain ⟨ing, hi, hqq⟩ := Option.map_eq_some'.mp hq
    simp only [materialDetailsOf, List.getElem?_map, hi, Option.map_some']
    cases hfind : ms.find? (fun m => m.id == ing.materialId) with
    | none => simp [materialLine, hfind]
    | some mat => simp [materialLine, hfind, JNum.div, hy, hqq]

/-- Witness for C3 amended at a concrete snapshot: a single ingredient of
zero quantity gives one cost line whose total is 0. -/
theorem C3_amended_witness :
    ((calculateHPP [matA] [] [] 0 prodZeroQty {}).breakdown.materialDetails.length
      = 1) ∧
    ((calculateHPP [matA] [] [] 0 prodZeroQty {}).breakdown.materialDetails[0]?.map
      MaterialDetail.total) = some (JNum.fin 0) :=
  ⟨by
    have h := (C3_amended [matA] [] [] 0 prodZeroQty {}).1
    simpa [prodZeroQty, prodCake] using h,
   (C3_amended [matA] [] [] 0 prodZeroQty {}).2 0
    (by norm_num [prodZeroQty, prodCake]) (by simp [prodZeroQty, prodCake])⟩

/-- Two 10-percent applications to the same base add up to one 20-percent
application, for every JNum base (finite or not). -/
theorem pct_double (K : JNum) :
    (K.mul (JNum.fin (10 / 100))).add (K.mul (JNum.fin (10 / 100))) =
      K.mul (JNum.fin (20 / 100)) := by
  cases K with
  | fin a =>
      simp only [JNum.fin_mul_fin, JNum.fin_add_fin, JNum.fin.injEq]
      ring
  | posInf => norm_num [JNum.mul, JNum.add]
  | negInf => norm_num [JNum.mul, JNum.add]
  | nan => norm_num [JNum.mul, JNum.add]

/-- C1 counterexample: at the snapshot shape cited by the claim — two
percentage overheads of 10 percent each over the base 10120 — applying
the two rules in sequence yields overheadCost 2024, exactly the same as
applying both simultaneously as a single 20 percent rule, contradicting
the claimed difference. -/
theorem C1_counterexample :
    ((calculateHPP [matA] [ovhPctA, ovhPctB] [] 0 prodCake {}).breakdown.overheadCost =
      (calculateHPP [matA] [ovhPct20] [] 0 prodCake {}).breakdown.overheadCost) ∧
    ((calculateHPP [matA] [ovhPctA, ovhPctB] [] 0 prodCake {}).breakdown.overheadCost =
      JNum.fin 2024) := by
  rw [calculateHPP_overheadCost, calculateHPP_overheadCost]
  norm_num [overheadCostOf, overheadContribution, materialsTotalOf,
    materialDetailsOf, materialLine, laborCostOf, matA, prodCake, ovhPctA,
    ovhPctB, ovhPct20, DEFAULT_MONTHLY_PRODUCTION, List.find?, JNum.div,
    JNum.add, JNum.mul]

/-- C1 amended: each percentage-type overhead contributes amount/100
times the materials+labor subtotal, a base that is fixed before the
overhead fold and never includes prior overhead lines; consequently
calculateHPP IS invariant under reordering overhead entries, and two
percentage overheads of 10 percent each applied in sequence yield the
same overheadCost as a single simultaneous 20 percent application to the
same base. -/
theorem C1_amended :
    (∀ (mp : ℚ) (base : JNum) (o : Overhead),
      o.allocationType = AllocationType.percentage →
      overheadContribution mp base o = base.mul (JNum.fin (o.amount / 100))) ∧
    (∀ (ms : List Material) (lrs : List LaborRate) (now : ℤ) (p : Product)
      (ov : HPPOverrides) (os₁ os₂ : List Overhead), os₁.Perm os₂ →
      (calculateHPP ms os₁ lrs now p ov).breakdown.overheadCost =
      (calculateHPP ms os₂ lrs now p ov).breakdown.overheadCost) ∧
    (∀ (ms : List Material) (lrs : List LaborRate) (now : ℤ) (p : Product)
      (ov : HPPOverrides) (o₁ o₂ o₃ : Overhead),
      o₁.allocationType = AllocationType.percentage → o₁.amount = 10 →
      o₂.allocationType = AllocationType.percentage → o₂.amount = 10 →
      o₃.allocationType = AllocationType.percentage → o₃.amount = 20 →
      (calculateHPP ms [o₁, o₂] lrs now p ov).breakdown.overheadCost =
      (calculateHPP ms [o₃] lrs now p ov).breakdown.overheadCost) := by
  refine ⟨?_, ?_, ?_⟩
  · intro mp base o h
    simp [overheadContribution, h]
  · intro ms lrs now p ov os₁ os₂ h
    rw [calculateHPP_overheadCost, calculateHPP_overheadCost]
    exact foldl_add_perm
      (overheadContribution (ov.monthlyProduction.getD DEFAULT_MONTHLY_PRODUCTION)
        ((materialsTotalOf ms ov p).add (JNum.fin (laborCostOf lrs ov p)))) h _
  · intro ms lrs now p ov o₁ o₂ o₃ ht₁ ha₁ ht₂ ha₂ ht₃ ha₃
    rw [calculateHPP_overheadCost, calculateHPP_overheadCost]
    simp only [overheadCostOf, List.foldl_cons, List.foldl_nil,
      overheadContribution, ht₁, ht₂, ht₃, ha₁, ha₂, ha₃, JNum.zero_add']
    exact pct_double _

/-- Witness for C1 amended at concrete snapshots: swapping a percentage
overhead with a fixed overhead leaves overheadCost unchanged, and the
two 10 percent rules equal the single 20 percent rule. -/
theorem C1_amended_witness :
    ((calculateHPP [matA] [ovhPctA, ovhRent] [] 0 prodCake {}).breakdown.overheadCost =
      (calculateHPP [matA] [ovhRent, ovhPctA] [] 0 prodCake {}).breakdown.overheadCost) ∧
    ((calculateHPP [matA] [ovhPctA, ovhPctB] [] 0 prodCake {}).breakdown.overheadCost =
      (calculateHPP [matA] [ovhPct20] [] 0 prodCake {}).breakdown.overheadCost) :=
  ⟨C1_amended.2.1 [matA] [] 0 prodCake {} [ovhPctA, ovhRent] [ovhRent, ovhPctA]
      (List.Perm.swap ovhRent ovhPctA []),
   C1_amended.2.2 [matA] [] 0 prodCake {} ovhPctA ovhPctB ovhPct20
      rfl rfl rfl rfl rfl rfl⟩

/-- C9: calculateHPP is invariant under reordering of the ingredient
list: for every permutation of the ingredients, materialsTotal,
hppPerUnit and suggestedPrice are unchanged, and the per-material detail
lines are a permutation of the originals. -/
theorem C9_ingredient_reordering (ms : List Material) (os : List Overhead)
    (lrs : List LaborRate) (now : ℤ) (p : Product) (ov : HPPOverrides)
    (ing₂ : List ProductIngredient) (h : p.ingredients.Perm ing₂) :
    ((calculateHPP ms os lrs now { p with ingredients := ing₂ } ov).breakdown.materialsTotal =
      (calculateHPP ms os lrs now p ov).breakdown.materialsTotal) ∧
    ((calculateHPP ms os lrs now { p with ingredients := ing₂ } ov).breakdown.hppPerUnit =
      (calculateHPP ms os lrs now p ov).breakdown.hppPerUnit) ∧
    ((calculateHPP ms os lrs now { p with ingredients := ing₂ } ov).suggestedPrice =
      (calculateHPP ms os lrs now p ov).suggestedPrice) ∧
    ((calculateHPP ms os lrs now p ov).breakdown.materialDetails).Perm
      ((calculateHPP ms os lrs now { p with ingredients := ing₂ } ov).breakdown.materialDetails) := by
  have hmt : materialsTotalOf ms ov { p with ingredients := ing₂ } =
      materialsTotalOf ms ov p := by
    simp only [materialsTotalOf, materialDetailsOf, List.foldl_map]
    exact foldl_add_perm (fun a => (materialLine ms ov p a).total) h.symm (JNum.fin 0)
  have hlc : laborCostOf lrs ov { p with ingredients := ing₂ } =
      laborCostOf lrs ov p := rfl
  refine ⟨?_, ?_, ?_, ?_⟩
  · rw [calculateHPP_materialsTotal, calculateHPP_materialsTotal, hmt]
  · rw [calculateHPP_hppPerUnit, calculateHPP_hppPerUnit, hmt, hlc]
  · rw [calculateHPP_suggestedPrice, calculateHPP_suggestedPrice,
      calculateHPP_hppPerUnit, calculateHPP_hppPerUnit, hmt, hlc]
  · rw [calculateHPP_materialDetails, calculateHPP_materialDetails]
    exact h.map (materialLine ms ov p)

/-- Witness for C9 at a concrete snapshot: swapping the two ingredient
lines of prodTwo leaves materialsTotal, hppPerUnit and suggestedPrice
unchanged and permutes the detail lines. -/
theorem C9_witness :
    ((calculateHPP [matA] [] [] 0 { prodTwo with ingredients := [ingB, ingA] } {}).breakdown.materialsTotal =
      (calculateHPP [matA] [] [] 0 prodTwo {}).breakdown.materialsTotal) ∧
    ((calculateHPP [matA] [] [] 0 { prodTwo with ingredients := [ingB, ingA] } {}).breakdown.hppPerUnit =
      (calculateHPP [matA] [] [] 0 prodTwo {}).breakdown.hppPerUnit) ∧
    ((calculateHPP [matA] [] [] 0 { prodTwo with ingredients := [ingB, ingA] } {}).suggestedPrice =
      (calculateHPP [matA] [] [] 0 prodTwo {}).suggestedPrice) ∧
    ((calculateHPP [matA] [] [] 0 prodTwo {}).breakdown.materialDetails).Perm
      ((calculateHPP [matA] [] [] 0 { prodTwo with ingredients := [ingB, ingA] } {}).breakdown.materialDetails) :=
  C9_ingredient_reordering [matA] [] [] 0 prodTwo {} [ingB, ingA]
    (List.Perm.swap ingB ingA [])

/-- With a nonzero yield, every material detail line has a finite total. -/
theorem materialLine_total_fin (ms : List Material) (ov : HPPOverrides)
    (p : Product) (ing : ProductIngredient) (hy : p.yieldPerBatch ≠ 0) :
    ∃ q, (materialLine ms ov p ing).total = JNum.fin q := by
  cases hfind : ms.find? (fun m => m.id == ing.materialId) with
  | none => exact ⟨0, by simp [materialLine, hfind]⟩
  | some mat =>
      simp only [materialLine, hfind]
      rw [JNum.fin_div_fin _ _ hy, JNum.fin_mul_fin]
      exact ⟨_, rfl⟩

/-- With a nonzero yield, materialsTotal is finite. -/
theorem materialsTotalOf_fin (ms : List Material) (ov : HPPOverrides)
    (p : Product) (hy : p.yieldPerBatch ≠ 0) :
    ∃ q, materialsTotalOf ms ov p = JNum.fin q := by
  unfold materialsTotalOf materialDetailsOf
  rw [List.foldl_map]
  exact foldl_add_fin (fun a => (materialLine ms ov p a).total) p.ingredients 0
    (fun a _ => materialLine_total_fin ms ov p a hy)

/-- With a nonzero assumed monthly production and a finite base, the
overhead cost is finite. -/
theorem overheadCostOf_fin (os : List Overhead) (mp : ℚ) (hmp : mp ≠ 0)
    (b : ℚ) : ∃ q, overheadCostOf os mp (JNum.fin b) = JNum.fin q := by
  unfold overheadCostOf
  refine foldl_add_fin (overheadContribution mp (JNum.fin b)) os 0 ?_
  intro o _
  cases ho : o.allocationType with
  | fixed =>
      simp only [overheadContribution, ho]
      rw [JNum.fin_div_fin _ _ hmp]
      exact ⟨_, rfl⟩
  | per_unit => exact ⟨o.amount, by simp [overheadContribution, ho]⟩
  | percentage => exact ⟨b * (o.amount / 100), by simp [overheadContribution, ho]⟩

/-- C4: with an effective margin in [0, 99] (and well-defined divisions:
nonzero yield and nonzero assumed monthly production), hppPerUnit is a
finite value h, suggestedPrice equals h / (1 - margin/100) divided by 100,
rounded up, times 100 — the ceiling to the nearest 100 — and satisfies
suggestedPrice * (1 - margin/100) ≥ hppPerUnit. -/
theorem C4_suggestedPrice_margin (ms : List Material) (os : List Overhead)
    (lrs : List LaborRate) (now : ℤ) (p : Product) (ov : HPPOverrides)
    (h0 : 0 ≤ ov.marginPercent.getD DEFAULT_MARGIN)
    (h99 : ov.marginPercent.getD DEFAULT_MARGIN ≤ 99)
    (hy : p.yieldPerBatch ≠ 0)
    (hmp : ov.monthlyProduction.getD DEFAULT_MONTHLY_PRODUCTION ≠ 0) :
    ∃ h : ℚ,
      (calculateHPP ms os lrs now p ov).breakdown.hppPerUnit = JNum.fin h ∧
      (calculateHPP ms os lrs now p ov).suggestedPrice =
        JNum.fin
          (((⌈h / (1 - ov.marginPercent.getD DEFAULT_MARGIN / 100) / 100⌉ : ℤ) : ℚ) * 100) ∧
      h ≤ (((⌈h / (1 - ov.marginPercent.getD DEFAULT_MARGIN / 100) / 100⌉ : ℤ) : ℚ) * 100) *
            (1 - ov.marginPercent.getD DEFAULT_MARGIN / 100) := by
  set m := ov.marginPercent.getD DEFAULT_MARGIN with hm
  obtain ⟨mt, hmt⟩ := materialsTotalOf_fin ms ov p hy
  obtain ⟨oc, hoc⟩ :=
    overheadCostOf_fin os (ov.monthlyProduction.getD DEFAULT_MONTHLY_PRODUCTION)
      hmp (mt + laborCostOf lrs ov p)
  have hc : (0:ℚ) < 1 - m / 100 := by linarith
  have hcne : (1 - m / 100) ≠ 0 := ne_of_gt hc
  have hh : (calculateHPP ms os lrs now p ov).breakdown.hppPerUnit =
      JNum.fin (mt + laborCostOf lrs ov p + oc) := by
    rw [calculateHPP_hppPerUnit, hmt, JNum.fin_add_fin, hoc, JNum.fin_add_fin]
  refine ⟨mt + laborCostOf lrs ov p + oc, hh, ?_, ?_⟩
  · rw [calculateHPP_suggestedPrice, hh, ← hm,
      JNum.fin_div_fin _ _ hcne,
      JNum.fin_div_fin _ _ (by norm_num : (100:ℚ) ≠ 0)]
    simp [JNum.ceil]
  · have h1 : (mt + laborCostOf lrs ov p + oc) / (1 - m / 100) / 100 ≤
        ((⌈(mt + laborCostOf lrs ov p + oc) / (1 - m / 100) / 100⌉ : ℤ) : ℚ) :=
      Int.le_ceil _
    have h2 : (mt + laborCostOf lrs ov p + oc) / (1 - m / 100) ≤
        ((⌈(mt + laborCostOf lrs ov p + oc) / (1 - m / 100) / 100⌉ : ℤ) : ℚ) * 100 := by
      linarith
    calc mt + laborCostOf lrs ov p + oc
        = ((mt + laborCostOf lrs ov p + oc) / (1 - m / 100)) * (1 - m / 100) :=
          (div_mul_cancel₀ _ hcne).symm
      _ ≤ (((⌈(mt + laborCostOf lrs ov p + oc) / (1 - m / 100) / 100⌉ : ℤ) : ℚ) * 100) *
            (1 - m / 100) := mul_le_mul_of_nonneg_right h2 (le_of_lt hc)

/-- Witness for C4 at the end-to-end fixture of the spec: flour at 12 per
gram, 100 g per batch, yield 10, 30 labor minutes at 25000 per hour, one
fixed overhead of 500000 over 500 units, default margin 30 percent. -/
theorem C4_witness :
    ∃ h : ℚ,
      (calculateHPP [matA] [ovhRent] [rateBaker] 0 prodCake {}).breakdown.hppPerUnit =
        JNum.fin h ∧
      (calculateHPP [matA] [ovhRent] [rateBaker] 0 prodCake {}).suggestedPrice =
        JNum.fin (((⌈h / (1 - 30 / 100) / 100⌉ : ℤ) : ℚ) * 100) ∧
      h ≤ (((⌈h / (1 - 30 / 100) / 100⌉ : ℤ) : ℚ) * 100) * (1 - 30 / 100) :=
  C4_suggestedPrice_margin [matA] [ovhRent] [rateBaker] 0 prodCake {}
    (by norm_num [DEFAULT_MARGIN]) (by norm_num [DEFAULT_MARGIN])
    (by norm_num [prodCake]) (by norm_num [DEFAULT_MONTHLY_PRODUCTION])

/-- C2 (evidence for the code bug): the engine has no guard for the
degenerate inputs.  With yieldPerBatch = 0 the quantity-per-unit division
by zero propagates: hppPerUnit and suggestedPrice come out as Infinity;
with a margin of 100 percent the denominator 1 - margin/100 is zero and
suggestedPrice comes out as Infinity — instead of the guarded finite
fallbacks the claim (and the spec) require. -/
theorem C2_unguarded_degenerate_inputs :
    ((calculateHPP [matA] [] [] 0 prodZeroYield {}).breakdown.hppPerUnit =
        JNum.posInf ∧
      (calculateHPP [matA] [] [] 0 prodZeroYield {}).suggestedPrice =
        JNum.posInf) ∧
    (calculateHPP [matA] [ovhRent] [rateBaker] 0 prodCake
        { marginPercent := some 100 }).suggestedPrice = JNum.posInf := by
  refine ⟨⟨?_, ?_⟩, ?_⟩
  · rw [calculateHPP_hppPerUnit]
    norm_num [materialsTotalOf, materialDetailsOf, materialLine, laborCostOf,
      overheadCostOf, prodZeroYield, prodCake, matA, List.find?,
      JNum.div, JNum.add, JNum.mul]
  · rw [calculateHPP_suggestedPrice, calculateHPP_hppPerUnit]
    norm_num [materialsTotalOf, materialDetailsOf, materialLine, laborCostOf,
      overheadCostOf, prodZeroYield, prodCake, matA, List.find?,
      DEFAULT_MARGIN, JNum.div, JNum.add, JNum.mul, JNum.ceil]
  · rw [calculateHPP_suggestedPrice, calculateHPP_hppPerUnit]
    norm_num [materialsTotalOf, materialDetailsOf, materialLine, laborCostOf,
      overheadCostOf, overheadContribution, prodCake, matA, ovhRent, rateBaker,
      DEFAULT_MONTHLY_PRODUCTION, List.find?, JNum.div, JNum.add, JNum.mul,
      JNum.ceil]

/-- With no recent sales, the dense 90-day series is all zeros. -/
theorem salesSeries_empty (allSales : List Sale) (productId : String) (now : ℤ)
    (hempty : recentSalesOf allSales productId now = []) :
    salesSeries allSales productId now = List.replicate 90 0 := by
  have hlen : (salesSeries allSales productId now).length = 90 := rfl
  have hall : ∀ b ∈ salesSeries allSales productId now, b = 0 := by
    intro b hb
    simp only [salesSeries, List.mem_map] at hb
    obtain ⟨j, _, hb⟩ := hb
    rw [← hb]
    simp [dailyQty, hempty]
  calc salesSeries allSales productId now
      = List.replicate (salesSeries allSales productId now).length 0 :=
        List.eq_replicate_length.mpr hall
    _ = List.replicate 90 0 := by rw [hlen]

/-- The moving average of the all-zero 90-day series is zero. -/
theorem ma_replicate_zero (w : ℕ) (hw : w ≠ 0) (hle : w ≤ 90) :
    calculateMovingAverage (List.replicate 90 0) w = JNum.fin 0 := by
  unfold calculateMovingAverage
  rw [if_neg (by simp; omega)]
  simp only [hw, if_neg, List.length_replicate, List.drop_replicate,
    List.sum_replicate, smul_zero]
  rw [JNum.fin_div_fin _ _ (by exact_mod_cast hw)]
  simp

/-- The regression slope of the all-zero 90-day series is zero: the
numerator vanishes, so the slope is zero whether or not the denominator
does. -/
theorem regression_slope_replicate_zero :
    (linearRegression (((List.replicate 90 (0:ℚ)).enum).map
      (fun p => ((p.1 : ℚ), p.2)))).1 = JNum.fin 0 := by
  have hsnd : (((List.replicate 90 (0:ℚ)).enum).map
      (fun p => ((p.1 : ℚ), p.2))).map Prod.snd = List.replicate 90 (0:ℚ) := by
    rw [List.map_map]
    have hcomp : (Prod.snd ∘ fun p : ℕ × ℚ => ((p.1 : ℚ), p.2)) = Prod.snd := rfl
    rw [hcomp, List.enum_map_snd]
  have hsumY : ((((List.replicate 90 (0:ℚ)).enum).map
      (fun p => ((p.1 : ℚ), p.2))).map Prod.snd).sum = 0 := by
    rw [hsnd]
    simp
  have hsumXY : ((((List.replicate 90 (0:ℚ)).enum).map
      (fun p => ((p.1 : ℚ), p.2))).map (fun p => p.1 * p.2)).sum = 0 := by
    apply List.sum_eq_zero
    intro x hx
    simp only [List.mem_map] at hx
    obtain ⟨p, hp, hpx⟩ := hx
    obtain ⟨a, ha, hap⟩ := hp
    have h2 : a.2 = 0 := by
      have hmem : a.2 ∈ (List.replicate 90 (0:ℚ)).enum.map Prod.snd :=
        List.mem_map_of_mem Prod.snd ha
      rw [List.enum_map_snd] at hmem
      exact List.eq_of_mem_replicate hmem
    rw [← hpx, ← hap]
    simp [h2]
  unfold linearRegression
  rw [if_neg (by simp)]
  simp only [hsumY, hsumXY, mul_zero, sub_zero]
  exact JNum.nanTo0_zero_div _

/-- With zero slope and zero base value, every forecast day predicts a
zero quantity. -/
theorem forecastDay_zero_quantity (now : ℤ) (i : ℕ) :
    (forecastDay now (JNum.fin 0) (JNum.fin 0) i).quantity = JNum.fin 0 := by
  unfold forecastDay
  norm_num [JNum.maxQ, JNum.div, JNum.add, JNum.mul, JNum.round, JNum.max0]

/-- With zero slope and zero base value, the total forecast is zero. -/
theorem totalForecast_zero_of_zero (now : ℤ) (hd : ℕ) :
    (dailyForecastOf now (JNum.fin 0) (JNum.fin 0) hd).foldl
      (fun sum d => sum.add d.quantity) (JNum.fin 0) = JNum.fin 0 := by
  refine foldl_add_zero ForecastDay.quantity _ ?_
  intro d hd2
  simp only [dailyForecastOf, List.mem_map] at hd2
  obtain ⟨k, _, hk⟩ := hd2
  rw [← hk]
  exact forecastDay_zero_quantity now (k + 1)

/-- With positive ingredient quantities, non-negative stock and a
non-negative yield, the raw current stock is a non-negative finite
value. -/
theorem rawCurrentStock_fin_nonneg (materials : List Material)
    (product : Product)
    (hq : ∀ ing ∈ product.ingredients, 0 < ing.quantity)
    (hs : ∀ m ∈ materials, 0 ≤ m.stockAmount)
    (hy : 0 ≤ product.yieldPerBatch) :
    ∃ s : ℚ, rawCurrentStock materials product = JNum.fin s ∧ 0 ≤ s := by
  unfold rawCurrentStock
  suffices haux : ∀ (l : List ProductIngredient),
      (∀ ing ∈ l, 0 < ing.quantity) → ∀ q0 : ℚ, 0 ≤ q0 →
      ∃ s, l.foldl (stockStep materials product) (JNum.fin q0) = JNum.fin s ∧
        0 ≤ s by
    exact haux product.ingredients hq 0 le_rfl
  intro l
  induction l with
  | nil => exact fun _ q0 h0 => ⟨q0, rfl, h0⟩
  | cons ing tl ih =>
      intro hql q0 h0
      have hstep : ∃ q1 : ℚ,
          stockStep materials product (JNum.fin q0) ing = JNum.fin q1 ∧
          0 ≤ q1 := by
        unfold stockStep
        cases hfind : materials.find? (fun m => m.id == ing.materialId) with
        | none => exact ⟨q0, rfl, h0⟩
        | some mat =>
            dsimp only
            have hmem := List.mem_of_find?_eq_some hfind
            have hstock := hs mat hmem
            have hqpos := hql ing (by simp)
            rw [JNum.fin_div_fin _ _ (ne_of_gt hqpos)]
            simp only [JNum.floor, JNum.fin_mul_fin, JNum.fin_add_fin]
            refine ⟨_, rfl, ?_⟩
            have hfl : (0:ℚ) ≤ ((⌊mat.stockAmount / ing.quantity⌋ : ℤ) : ℚ) := by
              have hdiv : (0:ℚ) ≤ mat.stockAmount / ing.quantity :=
                div_nonneg hstock (le_of_lt hqpos)
              exact_mod_cast Int.floor_nonneg.mpr hdiv
            have hterm := mul_nonneg hfl hy
            linarith
      obtain ⟨q1, hq1, h1⟩ := hstep
      simp only [List.foldl_cons, hq1]
      exact ih (fun a ha => hql a (by simp [ha])) q1 h1

/-- C6: for a product whose sales history over the trailing 90-day
window is empty, the forecast yields ma7 = 0, ma30 = 0, trend = stable,
totalForecast = 0 and recommendedRestock = 0 (the zero safety buffer
minus the current stock, clamped to 0).  Ingredient quantities are
assumed positive, stock and yield non-negative, per the data-model
invariants. -/
theorem C6_empty_history_forecast (products : List Product)
    (allSales : List Sale) (materials : List Material) (now : ℤ)
    (productId : String) (hd sd : ℕ) (product : Product)
    (hfind : products.find? (fun p => p.id == productId) = some product)
    (hempty : recentSalesOf allSales productId now = [])
    (hq : ∀ ing ∈ product.ingredients, 0 < ing.quantity)
    (hs : ∀ m ∈ materials, 0 ≤ m.stockAmount)
    (hy : 0 ≤ product.yieldPerBatch) :
    calculateMovingAverage (salesSeries allSales productId now) 7 = JNum.fin 0 ∧
    calculateMovingAverage (salesSeries allSales productId now) 30 = JNum.fin 0 ∧
    ∃ r, calculateForecast products allSales materials now productId hd sd =
        some r ∧
      r.averageDailySales = JNum.fin 0 ∧
      r.trend = Trend.stable ∧
      r.totalForecast = JNum.fin 0 ∧
      r.recommendedRestock = JNum.fin 0 := by
  have hseries := salesSeries_empty allSales productId now hempty
  have hma7 : ma7Of allSales productId now = JNum.fin 0 := by
    unfold ma7Of
    rw [hseries]
    exact ma_replicate_zero 7 (by norm_num) (by norm_num)
  have hma30 : ma30Of allSales productId now = JNum.fin 0 := by
    unfold ma30Of
    rw [hseries]
    exact ma_replicate_zero 30 (by norm_num) (by norm_num)
  have hslope : slopeOf allSales productId now = JNum.fin 0 := by
    unfold slopeOf
    rw [hseries]
    exact regression_slope_replicate_zero
  have htp : trendPercentOf allSales productId now = JNum.fin 0 := by
    unfold trendPercentOf
    rw [hslope, hma30]
    norm_num [JNum.maxQ, JNum.div, JNum.mul]
  have htf : totalForecastOf allSales productId now hd = JNum.fin 0 := by
    unfold totalForecastOf
    rw [hslope, hma7]
    exact totalForecast_zero_of_zero now hd
  obtain ⟨s, hsfin, hsnn⟩ := rawCurrentStock_fin_nonneg materials product hq hs hy
  refine ⟨hma7, hma30, ?_⟩
  simp only [calculateForecast, hfind]
  refine ⟨_, rfl, hma7, ?_, htf, ?_⟩
  · rw [htp]
    norm_num [JNum.gtQ, JNum.ltQ]
  · rw [htf, hsfin, hma7]
    by_cases hs0 : s = 0
    · norm_num [hs0, JNum.orElse, JNum.sub, JNum.neg, JNum.add, JNum.mul,
        JNum.ceil, JNum.max0]
    · have hspos : 0 < s := lt_of_le_of_ne hsnn (Ne.symm hs0)
      norm_num [JNum.orElse, hs0, JNum.sub, JNum.neg, JNum.add, JNum.mul,
        JNum.ceil, JNum.max0]
      linarith

/-- Witness for C6 at a concrete snapshot: no sales at all, a product
with one resolved ingredient, positive quantities, non-negative stock. -/
theorem C6_witness :
    calculateMovingAverage (salesSeries [] "p1" 0) 7 = JNum.fin 0 ∧
    calculateMovingAverage (salesSeries [] "p1" 0) 30 = JNum.fin 0 ∧
    ∃ r, calculateForecast [prodCake] [] [matA] 0 "p1" 30 7 = some r ∧
      r.averageDailySales = JNum.fin 0 ∧
      r.trend = Trend.stable ∧
      r.totalForecast = JNum.fin 0 ∧
      r.recommendedRestock = JNum.fin 0 :=
  C6_empty_history_forecast [prodCake] [] [matA] 0 "p1" 30 7 prodCake
    (by simp [List.find?, prodCake])
    (by simp [recentSalesOf])
    (by intro ing hing; simp [prodCake] at hing; simp [hing])
    (by intro m hm; simp at hm; simp [hm, matA])
    (by norm_num [prodCake])

end HPPCalc
